import Mathlib

/-!
# Verification of the golang-clickhouse HTTP client

A shallow embedding of the query-execution client for ClickHouse
(`clickhouse.go`, `escape.go`, `limiter.go` of package `clickhouse`),
together with proofs about the escape round-trip, the retry loop
`Conn.doQuery`, error classification `handleErrStatus`, the streaming
iterator (`Iter.Next`, `Iter.Close`), the configuration setters and the
request throttle.

Strings are modelled as `List Char` or `String`; all the characters the
code manipulates are single-byte ASCII, so Go's byte-level indexing and
the character-level model agree on every input considered here.
Machine integers (`int32`, `uint32`) are modelled as `Int`/`Nat` with
explicit reduction modulo `2^32` where Go's conversions wrap.
-/

set_option maxRecDepth 10000

namespace Clickhouse

/-! ## escape.go : `Escape` and `Unescape` -/

/-- One step of `Escape`: the Go `switch` on the one-byte slice
`line[i : i+1]`.  The source's `case "''"` compares the single byte with a
two-character string and can never match, so a single quote falls through
to `default` and is emitted unchanged. -/
def escapeChar (c : Char) : List Char :=
  if c = '\x08' then ['\\', 'b']
  else if c = '\x0c' then ['\\', 'f']
  else if c = '\r' then ['\\', 'r']
  else if c = '\n' then ['\\', 'n']
  else if c = '\t' then ['\\', 't']
  else if c = '\\' then ['\\', '\\']
  else if c = '/' then ['\\', '/']
  else if c = '-' then ['\\', '-']
  else [c]

/-- `Escape` escapes special symbols (escape.go): each input byte is
replaced by `escapeChar` of it, in order. -/
def Escape : List Char → List Char
  | [] => []
  | c :: rest => escapeChar c ++ Escape rest

/-- The two-character cases of the `switch` inside `Unescape`: `some c`
when the pair `a b` is one of the recognized escape sequences. -/
def unescapePair (a b : Char) : Option Char :=
  if a = '\\' then
    if b = 'b' then some '\x08'
    else if b = 'f' then some '\x0c'
    else if b = 'r' then some '\r'
    else if b = 'n' then some '\n'
    else if b = 't' then some '\t'
    else if b = '\'' then some '\''
    else if b = '\\' then some '\\'
    else if b = '/' then some '/'
    else if b = '-' then some '-'
    else none
  else none

/-- `Unescape` undoes escaping (escape.go).  The Go loop advances `i` by 2
when the pair at `i` is a recognized escape, and by 1 otherwise (the
`default` branch appends one byte and decrements `i`); when a single byte
remains (`i >= length-1`) it is appended verbatim and the loop breaks. -/
def Unescape : List Char → List Char
  | [] => []
  | [c] => [c]
  | a :: b :: rest =>
    match unescapePair a b with
    | some c => c :: Unescape rest
    | none => a :: Unescape (b :: rest)

/-- The special characters named by the spec: backspace, form feed,
carriage return, newline, tab, single quote, backslash, slash, hyphen. -/
def specialChars : List Char :=
  ['\x08', '\x0c', '\r', '\n', '\t', '\'', '\\', '/', '-']

/-! ## clickhouse.go : responses, `getReader`, `handleErrStatus` -/

/-- An HTTP response as `doQuery` observes it: status code, the
`Content-Encoding` header, whether `gzip.NewReader` would accept the body
(`gzipOk`), and the body text that `ioutil.ReadAll` produces through the
appropriate reader. -/
structure Response where
  status : Nat
  contentEncoding : String
  gzipOk : Bool
  body : String
deriving DecidableEq, Repr

/-- The stream handed back to the caller: either the raw `res.Body` or the
decompressing wrapper `gzip.NewReader(res.Body)`. -/
inductive Reader where
  | raw (r : Response)
  | gunzip (r : Response)
deriving DecidableEq, Repr

/-- Error text of a failed `gzip.NewReader`. -/
def gzipErrMsg : String := "gzip: invalid header"

/-- `getReader` (clickhouse.go): wrap the body in a gzip reader when the
response advertises `Content-Encoding: gzip`, otherwise return the body
itself. -/
def getReader (res : Response) : Except String Reader :=
  if res.contentEncoding = "gzip" then
    if res.gzipOk then .ok (.gunzip res) else .error gzipErrMsg
  else .ok (.raw res)

/-- `<title>` as a character list. -/
def titleOpen : List Char := '<' :: 't' :: 'i' :: 't' :: 'l' :: 'e' :: '>' :: []

/-- `</title>` as a character list. -/
def titleClose : List Char := '<' :: '/' :: 't' :: 'i' :: 't' :: 'l' :: 'e' :: '>' :: []

/-- Attempt of the regexp `<title>([^<]+)</title>` anchored at the head of
`cs`: `[^<]+` cannot cross a `<`, so the only candidate inner text is the
maximal nonempty run of non-`<` characters after `<title>`, which must be
followed immediately by `</title>`.  Returns the full matched text. -/
def matchTitleAt (cs : List Char) : Option (List Char) :=
  if titleOpen.isPrefixOf cs then
    let rest := cs.drop titleOpen.length
    let inner := rest.takeWhile (fun c => c ≠ '<')
    if inner ≠ [] ∧ titleClose.isPrefixOf (rest.drop inner.length) then
      some (titleOpen ++ inner ++ titleClose)
    else none
  else none

/-- Leftmost match of `<title>([^<]+)</title>`, i.e. the first element of
Go's `re.FindAllString(text, -1)` (`none` when the list is empty and
`list[0]` would panic). -/
def findTitle : List Char → Option (List Char)
  | [] => none
  | c :: rest =>
    match matchTitleAt (c :: rest) with
    | some m => some m
    | none => findTitle rest

/-- Result of `handleErrStatus`: `ok` is a nil error, `err` an error with
the given message, `panic` an out-of-range index (either `text[0]` on an
empty body or `list[0]` on an empty match list). -/
inductive HRes where
  | ok
  | err (msg : String)
  | panic
deriving DecidableEq, Repr

/-- `handleErrStatus` (clickhouse.go): nil for status 200; otherwise read
the body through `getReader` and classify — `text[0] == '<'` extracts the
first `<title>...</title>` match (`FindAllString` keeps the whole match,
tags included), anything else becomes the error message verbatim. -/
def handleErrStatus (res : Response) : HRes :=
  if res.status = 200 then .ok
  else
    match getReader res with
    | .error e => .err e
    | .ok _ =>
      match res.body.toList with
      | [] => .panic
      | c :: _ =>
        if c = '<' then
          match findTitle res.body.toList with
          | some m => .err (String.mk m)
          | none => .panic
        else .err res.body

/-! ## clickhouse.go : `Conn`, `New` and the configuration setters -/

/-- Go's `int32(x)` conversion from `int`: wrap modulo `2^32` into the
signed range. -/
def toInt32 (n : Int) : Int := (n + 2 ^ 31) % 2 ^ 32 - 2 ^ 31

/-- Go's `uint32(x)` conversion from `int`: wrap modulo `2^32`. -/
def toUInt32 (n : Int) : Nat := (n % 2 ^ 32).toNat

/-- The connection state (clickhouse.go).  `int32` fields are `Int`,
`uint32` fields are `Nat` (always in `[0, 2^32)` as produced by
`toUInt32`). -/
structure Conn where
  host : String
  port : Int
  user : String
  pass : String
  maxMemoryUsage : Int
  connectTimeout : Int
  sendTimeout : Int
  receiveTimeout : Int
  compression : Int
  attemptsAmount : Nat
  attemptWait : Nat
  protocol : String
deriving DecidableEq, Repr

/-- `New` (clickhouse.go): all tuning knobs start "unset"
(`-1`/disabled), one attempt, no wait, https. -/
def New (host : String) (port : Int) (user pass : String) : Conn :=
  { host := host, port := port, user := user, pass := pass
    protocol := "https"
    connectTimeout := -1, receiveTimeout := -1, sendTimeout := -1
    maxMemoryUsage := -1, compression := -1
    attemptsAmount := 1, attemptWait := 0 }

/-- `Conn.Attempts`: store `uint32(amount)` and `uint32(wait)`. -/
def Attempts (conn : Conn) (amount wait : Int) : Conn :=
  { conn with attemptsAmount := toUInt32 amount, attemptWait := toUInt32 wait }

/-- `Conn.MaxMemoryUsage`: negative input returns early, otherwise store
`int32(limit)`. -/
def MaxMemoryUsage (conn : Conn) (limit : Int) : Conn :=
  if limit < 0 then conn else { conn with maxMemoryUsage := toInt32 limit }

/-- `Conn.ConnectTimeout`: negative input returns early, otherwise store
`int32(timeout)`. -/
def ConnectTimeout (conn : Conn) (timeout : Int) : Conn :=
  if timeout < 0 then conn else { conn with connectTimeout := toInt32 timeout }

/-- `Conn.SendTimeout`: negative input returns early, otherwise store
`int32(timeout)`. -/
def SendTimeout (conn : Conn) (timeout : Int) : Conn :=
  if timeout < 0 then conn else { conn with sendTimeout := toInt32 timeout }

/-- `Conn.ReceiveTimeout`: stores `int32(timeout)` unconditionally — the
source has no negative-value guard here, unlike the other three setters. -/
def ReceiveTimeout (conn : Conn) (timeout : Int) : Conn :=
  { conn with receiveTimeout := toInt32 timeout }

/-- `Conn.Compression`: store 1 or 0. -/
def Compression (conn : Conn) (compression : Bool) : Conn :=
  { conn with compression := if compression then 1 else 0 }

/-- `Conn.getFQDN`: `user:pass@host:port`, password masked with `*` unless
the string is used to connect. -/
def getFQDN (conn : Conn) (toConnect : Bool) : String :=
  let masked := String.mk (List.replicate conn.pass.length '*')
  let pass := if toConnect then conn.pass else masked
  conn.user ++ ":" ++ pass ++ "@" ++ conn.host ++ ":" ++ toString conn.port

/-! ## clickhouse.go : the `doQuery` retry loop

The transport is modelled as an environment `env : Nat → Outcome` giving
the result of `client.Do` on the k-th attempt (0-based).  Request
building (`http.NewRequest`) never fails for the URLs the client
constructs, so its error branch is not modelled.  `time.Sleep` calls are
recorded in a trace. -/

/-- Outcome of `client.Do` on one attempt: a transport error (in which
case Go's `res` is nil) or a response. -/
inductive Outcome where
  | transportErr (msg : String)
  | response (r : Response)
deriving DecidableEq, Repr

/-- Result of `doQuery`: the stream handed to the caller, an error, or a
runtime panic (nil dereference / out-of-range index). -/
inductive DQRes where
  | ok (r : Reader)
  | err (msg : String)
  | panic
deriving DecidableEq, Repr

/-- Observable behaviour of one `doQuery` run: how many attempts were
performed, the seconds slept before retries (in order), and the result. -/
structure DQOut where
  attemptsMade : Nat
  sleeps : List Nat
  result : DQRes
deriving DecidableEq, Repr

/-- Does `sub` occur as a contiguous run inside `s`? -/
def containsSub (sub : List Char) : List Char → Bool
  | [] => sub.isEmpty
  | c :: rest => sub.isPrefixOf (c :: rest) || containsSub sub rest

/-- `strings.Contains(s, sub)`. -/
def goContains (s sub : String) : Bool := containsSub sub.toList s.toList

/-- The backoff of one iteration: before attempt `k > 0` the loop sleeps
`attempts * conn.attemptWait` seconds (a `uint32` product, hence the
reduction modulo `2^32`); no sleep before the first attempt. -/
def sleepStep (conn : Conn) (attempts : Nat) (sleeps : List Nat) : List Nat :=
  if attempts > 0 then sleeps ++ [attempts * conn.attemptWait % 2 ^ 32] else sleeps

/-- The loop of `Conn.doQuery`.  `fuel` counts the remaining iterations of
`for attempts < conn.attemptsAmount` (initially `conn.attemptsAmount`, so
`attempts + fuel = conn.attemptsAmount` throughout); `err`/`res` are the
variables assigned by `client.Do` and `handleErrStatus` that survive the
loop.  Inside the loop, the retry classification (memory-limit fast abort,
`handleErrStatus`, `getReader`) only runs under `attemptsAmount > 1`;
afterwards the last `err` is wrapped as "Can't do request to host ...",
a fresh `handleErrStatus` failure as "Catch error ...", and on success the
raw `res.Body` is returned without `getReader`. -/
def doQueryLoop (conn : Conn) (env : Nat → Outcome) :
    Nat → Nat → Option String → Option Response → List Nat → DQOut
  | fuel + 1, attempts, _, _, sleeps =>
    let sleeps' := sleepStep conn attempts sleeps
    match env attempts with
    | .transportErr m =>
      if conn.attemptsAmount > 1 then
        if goContains m "Memory limit" then
          ⟨attempts + 1, sleeps', .err ("Catch warning " ++ m)⟩
        else
          doQueryLoop conn env fuel (attempts + 1) (some m) none sleeps'
      else
        doQueryLoop conn env fuel (attempts + 1) (some m) none sleeps'
    | .response r =>
      if conn.attemptsAmount > 1 then
        match handleErrStatus r with
        | .panic => ⟨attempts + 1, sleeps', .panic⟩
        | .err e => doQueryLoop conn env fuel (attempts + 1) (some e) (some r) sleeps'
        | .ok =>
          match getReader r with
          | .ok rd => ⟨attempts + 1, sleeps', .ok rd⟩
          | .error e => ⟨attempts + 1, sleeps', .err e⟩
      else
        doQueryLoop conn env fuel (attempts + 1) none (some r) sleeps'
  | 0, attempts, err, res, sleeps =>
    match err with
    | some m =>
      ⟨attempts, sleeps, .err ("Can't do request to host " ++ getFQDN conn false ++ ": " ++ m)⟩
    | none =>
      match res with
      | none => ⟨attempts, sleeps, .panic⟩
      | some r =>
        match handleErrStatus r with
        | .panic => ⟨attempts, sleeps, .panic⟩
        | .err e => ⟨attempts, sleeps, .err ("Catch error " ++ e)⟩
        | .ok => ⟨attempts, sleeps, .ok (.raw r)⟩

/-- `Conn.doQuery`: run the loop from `attempts = 0` with nil `err`/`res`. -/
def doQuery (conn : Conn) (env : Nat → Outcome) : DQOut :=
  doQueryLoop conn env conn.attemptsAmount 0 none none []

/-- The error text produced by attempt `n - 1` (the most recent attempt
once `n` attempts were made): the transport error message, or the
`handleErrStatus` message of its response; `none` if that attempt did not
produce an error text. -/
def lastErrText (env : Nat → Outcome) : Nat → Option String
  | 0 => none
  | k + 1 =>
    match env k with
    | .transportErr m => some m
    | .response r =>
      match handleErrStatus r with
      | .err e => some e
      | _ => none

/-- Relation between the loop counter and the carried `err`/`res`
variables of `doQueryLoop`: either no attempt has run yet (both nil), or
they hold what the loop body assigned after the most recent attempt — the
transport error message with a nil response, or the response together
with the `handleErrStatus` assignment made only in the multi-attempt
branch. -/
def loopInv (conn : Conn) (env : Nat → Outcome) (attempts : Nat)
    (err : Option String) (res : Option Response) : Prop :=
  (attempts = 0 ∧ err = none ∧ res = none) ∨
  (1 ≤ attempts ∧
    ((∃ m, env (attempts - 1) = .transportErr m ∧ err = some m ∧ res = none) ∨
     (∃ r, env (attempts - 1) = .response r ∧ res = some r ∧
       err = (if conn.attemptsAmount > 1 then
                match handleErrStatus r with
                | .err e => some e
                | _ => none
              else none))))

/-- Observable outcome of a public entry point. -/
inductive CallOut where
  | ok
  | err (m : String)
  | panic
deriving DecidableEq, Repr

/-- `Conn.ForcedExec`: run `doQuery` and surface its error; on success the
stream is drained and closed. -/
def ForcedExec (conn : Conn) (env : Nat → Outcome) : CallOut :=
  match (doQuery conn env).result with
  | .ok _ => .ok
  | .err m => .err m
  | .panic => .panic

/-- `Conn.Exec`: the throttled wrapper around `ForcedExec`; the surfaced
value is the same. -/
def Exec (conn : Conn) (env : Nat → Outcome) : CallOut :=
  ForcedExec conn env

/-! ## clickhouse.go : the iterator — `Iter.Close` and `Iter.Next`

`Iter.Close` is declared with a VALUE receiver (`func (iter Iter) Close()`),
so the `iter.isClosed = true` assignment mutates a copy of the struct that
is discarded when `Close` returns; only `iter.readCloser.Close()` is an
effect on shared state.  We model the shared state as a counter of how
many times the underlying stream's `Close` has run. -/

/-- The part of `Iter` that `Close` consults. -/
structure IterC where
  isClosed : Bool
deriving DecidableEq, Repr

/-- The body of `Iter.Close` as executed on the receiver: returns the
updated receiver and the new close count of the underlying stream. -/
def closeBody (iter : IterC) (closes : Nat) : IterC × Nat :=
  if iter.isClosed then (iter, closes)
  else ({ iter with isClosed := true }, closes + 1)

/-- `Iter.Close` as the caller observes it: the receiver is passed BY
VALUE, so the updated copy produced by `closeBody` is dropped and the
caller's `iter` is unchanged; only the stream-close count survives. -/
def Close (iter : IterC) (closes : Nat) : IterC × Nat :=
  (iter, (closeBody iter closes).2)

/-- `strings.Split(line, "\t")`: split on every tab character (adjacent
tabs yield empty cells, the empty line yields one empty cell). -/
def splitTabs (line : String) : List String :=
  (line.toList.splitOn '\t').map (fun cs => String.mk cs)

/-- Insertion into the Go map `iter.columns`: a later assignment to the
same key overwrites the earlier one. -/
def mapInsert (m : List (String × Nat)) (k : String) (v : Nat) : List (String × Nat) :=
  match m with
  | [] => [(k, v)]
  | (k₁, v₁) :: rest => if k₁ = k then (k, v) :: rest else (k₁, v₁) :: mapInsert rest k v

/-- The `for index, column := range matches` loop of `ForcedFetch`:
assign `iter.columns[column] = index` for each header cell in order. -/
def columnsLoop (idx : Nat) : List String → List (String × Nat) → List (String × Nat)
  | [], m => m
  | c :: rest, m => columnsLoop (idx + 1) rest (mapInsert m c idx)

/-- The ColumnIndex built by `ForcedFetch` from the header line. -/
def columnsOf (header : List String) : List (String × Nat) :=
  columnsLoop 0 header []

/-- The row-building loop of `Iter.Next`: for every entry of the column
index, `iter.Result.data[column] = matches[index]`.  Go panics with an
out-of-range index as soon as some `index ≥ len(matches)` entry is
visited, and every entry is visited, so the whole build is `none` exactly
when any column position lies beyond the parsed cells. -/
def buildResult (columns : List (String × Nat)) (cells : List String) :
    Option (List (String × String)) :=
  match columns with
  | [] => some []
  | p :: rest =>
    match cells.get? p.2, buildResult rest cells with
    | some v, some r => some ((p.1, v) :: r)
    | _, _ => none

/-- The successful-read path of `Iter.Next` on one line: split the line on
tabs and index the cells through the ColumnIndex; `none` is the
out-of-range panic. -/
def NextRow (columns : List (String × Nat)) (line : String) :
    Option (List (String × String)) :=
  buildResult columns (splitTabs line)

/-! ## limiter.go : the request throttle

`Limiter.increase` sends `+1` and `Limiter.reduce` sends `-1` on an
unbuffered channel consumed by a single goroutine that adds the step to
the shared `requestsCounter`.  Each throttled entry point (`Exec`,
`Fetch`, `FetchOne`) runs `increase()` and then `defer reduce()`, so its
`+1` is sent strictly before its `-1` and the deferred `-1` runs on every
exit path; the counter evolution is an arbitrary interleaving of the
per-call step lists. -/

/-- A throttle event. -/
inductive TEv where
  | acquire
  | release
deriving DecidableEq, Repr

/-- How the body of a throttled call exits. -/
inductive ExitKind where
  | success
  | failure (msg : String)
  | panicked
deriving DecidableEq, Repr

/-- The `Forced` variants bypass the throttle entirely: no events. -/
def ForcedCallEvents (_ : ExitKind) : List TEv := []

/-- `Conn.Exec`: `increase()`, then `ForcedExec`, with `reduce()` deferred —
the release fires after the body on every exit, success, error or panic. -/
def ExecEvents (e : ExitKind) : List TEv :=
  [TEv.acquire] ++ ForcedCallEvents e ++ [TEv.release]

/-- `Conn.Fetch`: same acquire/defer-release bracket around `ForcedFetch`. -/
def FetchEvents (e : ExitKind) : List TEv :=
  [TEv.acquire] ++ ForcedCallEvents e ++ [TEv.release]

/-- `Conn.FetchOne`: same bracket around `ForcedFetchOne` (which itself
only calls `ForcedFetch`). -/
def FetchOneEvents (e : ExitKind) : List TEv :=
  [TEv.acquire] ++ ForcedCallEvents e ++ [TEv.release]

/-- The channel steps a call contributes: `+1` for its acquire, `-1` for
its release, in program order. -/
def stepsOf (t : List TEv) : List Int :=
  t.map (fun e => match e with | .acquire => 1 | .release => -1)

/-- Reachable states of the consumer goroutine: each pending call owns its
remaining step list; a scheduling step consumes the next step of any one
call and adds it to the shared counter.  Initially every call (whatever
its exit kind) contributes the steps of its event bracket and the counter
is 0. -/
inductive Reach : List (List Int) → Int → Prop where
  | init (calls : List ExitKind) :
      Reach (calls.map (fun e => stepsOf (ExecEvents e))) 0
  | step {pre post : List (List Int)} {x : Int} {rest : List Int} {c : Int} :
      Reach (pre ++ (x :: rest) :: post) c →
      Reach (pre ++ rest :: post) (c + x)

/-! ## Concrete fixtures used by the evaluation theorems below -/

/-- A freshly constructed connection (one attempt, no compression). -/
def conn0 : Conn := New "h" 9000 "u" "p"

/-- `conn0` after `Attempts(2, 0)`. -/
def connA2 : Conn := Attempts conn0 2 0

/-- `conn0` after `Compression(true)`. -/
def connGz : Conn := Compression conn0 true

/-- The spec's scenario: a non-2xx response with an HTML error page. -/
def htmlResp : Response :=
  ⟨500, "", true, "<html><title>DB::Exception: Memory limit exceeded</title></html>"⟩

/-- Transport that always yields `htmlResp`. -/
def htmlEnv : Nat → Outcome := fun _ => .response htmlResp

/-- A 201 response: inside the 2xx class, but not status 200. -/
def resp201 : Response := ⟨201, "", true, "oops"⟩

/-- Transport that always yields `resp201`. -/
def env201 : Nat → Outcome := fun _ => .response resp201

/-- A successful gzip-encoded response. -/
def gzResp : Response := ⟨200, "gzip", true, "payload"⟩

/-- Transport that always yields `gzResp`. -/
def gzEnv : Nat → Outcome := fun _ => .response gzResp

/-- A non-2xx response whose body is empty. -/
def emptyResp : Response := ⟨500, "", true, ""⟩

/-- A transport error carrying the server's memory-limit text. -/
def memErrMsg : String := "read: Memory limit exceeded"

/-- Transport that always fails with `memErrMsg`. -/
def memEnv : Nat → Outcome := fun _ => .transportErr memErrMsg

/-- `conn0` after `Attempts(5, 3)`. -/
def connA5 : Conn := Attempts conn0 5 3

end Clickhouse

/-! # Lemmas and claim theorems -/

namespace Clickhouse

/-- Unescaping consumes the escape image of one special character and
yields that character back, whatever follows.  Every recognized escape
pair starts with a backslash, while the single quote is emitted verbatim
by `Escape` (its `switch` case is dead), so the two never interfere. -/
lemma unescape_escapeChar (c : Char) (hc : c ∈ specialChars) (t : List Char) :
    Unescape (escapeChar c ++ t) = c :: Unescape t := by
  simp only [specialChars, List.mem_cons, List.not_mem_nil, or_false] at hc
  rcases hc with rfl | rfl | rfl | rfl | rfl | rfl | rfl | rfl | rfl
  all_goals first
    | (cases t with
        | nil => simp [escapeChar, Unescape]
        | cons b rest => simp [escapeChar, Unescape, unescapePair])
    | simp [escapeChar, Unescape, unescapePair]

/-- C9: for every string composed only of the special characters
(backspace, form feed, carriage return, newline, tab, single quote,
backslash, slash, hyphen), in any order, `Unescape (Escape s) = s`. -/
theorem c9_unescape_escape_roundtrip (s : List Char)
    (h : ∀ c ∈ s, c ∈ specialChars) :
    Unescape (Escape s) = s := by
  induction s with
  | nil => rfl
  | cons c rest ih =>
    rw [Escape, unescape_escapeChar c (h c (List.mem_cons_self c rest)),
      ih (fun x hx => h x (List.mem_cons_of_mem c hx))]

/-- Witness for C9 at a concrete string containing every special
character, with the quote adjacent to escaped characters. -/
theorem c9_unescape_escape_roundtrip_witness :
    (∀ c ∈ ('\'' :: '\x08' :: '\x0c' :: '\r' :: '\n' :: '\t' :: '\'' :: '\\' :: '/' :: '-' :: '\'' :: []),
        c ∈ specialChars) ∧
    Unescape (Escape ('\'' :: '\x08' :: '\x0c' :: '\r' :: '\n' :: '\t' :: '\'' :: '\\' :: '/' :: '-' :: '\'' :: [])) =
      ('\'' :: '\x08' :: '\x0c' :: '\r' :: '\n' :: '\t' :: '\'' :: '\\' :: '/' :: '-' :: '\'' :: []) :=
  ⟨by decide, c9_unescape_escape_roundtrip _ (by decide)⟩

/-- C1 (code bug): `Iter.Close` takes its receiver BY VALUE, so the
`isClosed` flag is set on a discarded copy and a second `Close()` on the
same iterator closes the underlying stream again: starting from an open
iterator and a stream closed 0 times, two `Close()` calls leave the
stream closed 2 times, not 1. -/
theorem c1_close_twice_closes_stream_twice :
    (Close (Close ⟨false⟩ 0).1 (Close ⟨false⟩ 0).2).2 = 2 ∧
    (Close (Close ⟨false⟩ 0).1 (Close ⟨false⟩ 0).2).2 ≠ 1 := by
  constructor <;> decide

/-- C5 (counterexample): `ReceiveTimeout` has no negative-value guard —
calling it with `-5` on a fresh connection overwrites the stored
`receiveTimeout` (previously `-1`) with `-5`, so the configuration does
not stay unchanged. -/
theorem c5_counterexample :
    (ReceiveTimeout conn0 (-5)).receiveTimeout = -5 ∧
    conn0.receiveTimeout = -1 ∧
    ReceiveTimeout conn0 (-5) ≠ conn0 := by
  refine ⟨by decide, by decide, by decide⟩

/-- C5 (amended): `MaxMemoryUsage`, `ConnectTimeout` and `SendTimeout`
silently ignore a negative argument (state unchanged, no error), while
`ReceiveTimeout` stores `int32(timeout)` unconditionally (and likewise
produces no error). -/
theorem c5_amended_setters (conn : Conn) (t : Int) (h : t < 0) :
    MaxMemoryUsage conn t = conn ∧
    ConnectTimeout conn t = conn ∧
    SendTimeout conn t = conn ∧
    (ReceiveTimeout conn t).receiveTimeout = toInt32 t := by
  refine ⟨?_, ?_, ?_, rfl⟩ <;>
    simp [MaxMemoryUsage, ConnectTimeout, SendTimeout, h]

/-- Witness for C5 (amended) at `conn0` and `-7`. -/
theorem c5_amended_setters_witness :
    (-7 : Int) < 0 ∧
    (MaxMemoryUsage conn0 (-7) = conn0 ∧
     ConnectTimeout conn0 (-7) = conn0 ∧
     SendTimeout conn0 (-7) = conn0 ∧
     (ReceiveTimeout conn0 (-7)).receiveTimeout = toInt32 (-7)) :=
  ⟨by decide, c5_amended_setters conn0 (-7) (by decide)⟩

end Clickhouse

namespace Clickhouse

/-- With the default single attempt, `doQuery` performs exactly one
attempt, never sleeps, skips the in-loop classification entirely, and
classifies the response only after the loop — returning the raw
`res.Body` on status 200. -/
lemma doQuery_single (conn : Conn) (env : Nat → Outcome) (r : Response)
    (h1 : conn.attemptsAmount = 1) (h2 : env 0 = .response r) :
    doQuery conn env = ⟨1, [],
      match handleErrStatus r with
      | .panic => .panic
      | .err e => .err ("Catch error " ++ e)
      | .ok => .ok (.raw r)⟩ := by
  simp [doQuery, doQueryLoop, sleepStep, h1, h2]
  cases handleErrStatus r <;> rfl

/-- `handleErrStatus` on a non-200, non-gzip response whose body starts
with `<` and has a title match: the error is the whole match. -/
lemma handleErrStatus_title (r : Response) (hs : r.status ≠ 200)
    (hgz : r.contentEncoding ≠ "gzip") (cs : List Char)
    (hb : r.body.toList = '<' :: cs) (m : List Char)
    (hm : findTitle r.body.toList = some m) :
    handleErrStatus r = .err (String.mk m) := by
  rw [hb] at hm
  have hb2 : r.body.data = '<' :: cs := hb
  simp [handleErrStatus, getReader, hs, hgz, hb2, hm]

/-- `handleErrStatus` on a non-200, non-gzip response whose body starts
with a character other than `<`: the error is the raw body. -/
lemma handleErrStatus_plain (r : Response) (hs : r.status ≠ 200)
    (hgz : r.contentEncoding ≠ "gzip") (c : Char) (cs : List Char)
    (hb : r.body.toList = c :: cs) (hc : c ≠ '<') :
    handleErrStatus r = .err r.body := by
  have hb2 : r.body.data = c :: cs := hb
  simp [handleErrStatus, getReader, hs, hgz, hb2, hc]

/-- C2 (counterexample): for the spec's own scenario body
`<html><title>DB::Exception: Memory limit exceeded</title></html>` on a
non-2xx response, the error surfaced by `Exec` is
`Catch error <title>DB::Exception: Memory limit exceeded</title>` —
`FindAllString` keeps the `<title>`/`</title>` tags and `doQuery`
prepends its log prefix — not the bare text between the tags. -/
theorem c2_counterexample :
    Exec conn0 htmlEnv =
      .err "Catch error <title>DB::Exception: Memory limit exceeded</title>" ∧
    Exec conn0 htmlEnv ≠ .err "DB::Exception: Memory limit exceeded" := by
  constructor <;> decide

/-- C2 (amended): on a single-attempt connection, for every non-200
response (without content-encoding), if the body starts with `<` the
surfaced error is `"Catch error "` followed by the entire first
`<title>...</title>` match (tags included); otherwise it is
`"Catch error "` followed by the raw body text. -/
theorem c2_amended_error_classification (conn : Conn) (env : Nat → Outcome)
    (r : Response) (h1 : conn.attemptsAmount = 1) (h2 : env 0 = .response r)
    (hs : r.status ≠ 200) (hgz : r.contentEncoding ≠ "gzip") :
    (∀ cs m, r.body.toList = '<' :: cs → findTitle r.body.toList = some m →
        Exec conn env = .err ("Catch error " ++ String.mk m)) ∧
    (∀ c cs, r.body.toList = c :: cs → c ≠ '<' →
        Exec conn env = .err ("Catch error " ++ r.body)) := by
  have hq := doQuery_single conn env r h1 h2
  constructor
  · intro cs m hb hm
    simp [Exec, ForcedExec, hq, handleErrStatus_title r hs hgz cs hb m hm]
  · intro c cs hb hc
    simp [Exec, ForcedExec, hq, handleErrStatus_plain r hs hgz c cs hb hc]

/-- Witness for C2 (amended) at the concrete scenario body. -/
theorem c2_amended_error_classification_witness :
    Exec conn0 htmlEnv =
      .err ("Catch error " ++
        String.mk "<title>DB::Exception: Memory limit exceeded</title>".toList) :=
  (c2_amended_error_classification conn0 htmlEnv htmlResp rfl rfl
      (by decide) (by decide)).1
    "html><title>DB::Exception: Memory limit exceeded</title></html>".toList
    "<title>DB::Exception: Memory limit exceeded</title>".toList
    (by decide) (by decide)

end Clickhouse

namespace Clickhouse

/-- C4 (code bug): with compression enabled on a fresh connection
(default `attemptsAmount = 1`), a 200 response with
`Content-Encoding: gzip` is returned as the RAW `res.Body` — the
post-loop success path of `doQuery` skips `getReader`, so the
still-compressed stream is handed to the caller; only with
`attemptsAmount > 1` does the in-loop success path decompress it. -/
theorem c4_gzip_not_decompressed_single_attempt :
    (doQuery connGz gzEnv).result = .ok (.raw gzResp) ∧
    (doQuery (Attempts connGz 2 0) gzEnv).result = .ok (.gunzip gzResp) ∧
    Reader.raw gzResp ≠ Reader.gunzip gzResp := by
  refine ⟨by decide, by decide, by decide⟩

/-- C8 (counterexample): with 2 attempts configured, a first attempt that
yields a 201 response — a 2xx status — does NOT end the loop: the code
only accepts status 200 (`res.StatusCode != 200` in `handleErrStatus`),
so a second attempt is performed. -/
theorem c8_counterexample :
    resp201.status / 100 = 2 ∧
    resp201.status ≠ 200 ∧
    env201 0 = .response resp201 ∧
    (doQuery connA2 env201).attemptsMade = 2 := by
  refine ⟨by decide, by decide, rfl, by decide⟩

end Clickhouse

namespace Clickhouse

/-- `handleErrStatus` on a non-200, non-gzip response with an EMPTY body:
`text[0]` is an out-of-range index. -/
lemma handleErrStatus_empty (r : Response) (hs : r.status ≠ 200)
    (hgz : r.contentEncoding ≠ "gzip") (hb : r.body = "") :
    handleErrStatus r = .panic := by
  have hb2 : r.body.data = [] := by rw [hb]
  simp [handleErrStatus, getReader, hs, hgz, hb2]

/-- C10: a non-2xx response with an empty (zero-byte) body makes
`handleErrStatus` index `text[0]` out of range, so the error branch of
every query — `doQuery` underlies `Exec`, `Fetch`, `FetchOne` and their
`Forced` variants — aborts with a panic instead of returning a flat
error, whatever the configured number of attempts (at least one). -/
theorem c10_empty_error_body_panics (conn : Conn) (r : Response)
    (ha : 1 ≤ conn.attemptsAmount) (hs : r.status ≠ 200) (hb : r.body = "")
    (hgz : r.contentEncoding ≠ "gzip") :
    handleErrStatus r = .panic ∧
    (doQuery conn (fun _ => .response r)).result = .panic ∧
    Exec conn (fun _ => .response r) = .panic := by
  have hpanic := handleErrStatus_empty r hs hgz hb
  obtain ⟨k, hk⟩ : ∃ k, conn.attemptsAmount = k + 1 :=
    ⟨conn.attemptsAmount - 1, by omega⟩
  have hdq : (doQuery conn (fun _ => .response r)).result = .panic := by
    cases k with
    | zero =>
      rw [doQuery_single conn _ r hk rfl, hpanic]
    | succ k2 =>
      have hgt : conn.attemptsAmount > 1 := by omega
      simp [doQuery, hk, doQueryLoop, hgt, hpanic]
  refine ⟨hpanic, hdq, ?_⟩
  simp [Exec, ForcedExec, hdq]

/-- Witness for C10 at a fresh connection and a 500 response with empty
body. -/
theorem c10_empty_error_body_panics_witness :
    1 ≤ conn0.attemptsAmount ∧
    (handleErrStatus emptyResp = .panic ∧
     (doQuery conn0 (fun _ => .response emptyResp)).result = .panic ∧
     Exec conn0 (fun _ => .response emptyResp) = .panic) :=
  ⟨by decide,
   c10_empty_error_body_panics conn0 emptyResp (by decide) (by decide) rfl
     (by decide)⟩

end Clickhouse

namespace Clickhouse

/-- Inserting a key always leaves the inserted pair in the map. -/
lemma mapInsert_mem (m : List (String × Nat)) (k : String) (v : Nat) :
    (k, v) ∈ mapInsert m k v := by
  induction m with
  | nil => simp [mapInsert]
  | cons p rest ih =>
    obtain ⟨k1, v1⟩ := p
    by_cases h : k1 = k <;> simp [mapInsert, h, ih]

/-- The ColumnIndex always keeps an entry at the position of the LAST
header cell: the final loop iteration assigns `columns[header[n-1]] = n-1`
and nothing overwrites it afterwards. -/
lemma columnsLoop_last_mem (header : List String) :
    ∀ idx m j, j + 1 = header.length →
      ∃ k, (k, idx + j) ∈ columnsLoop idx header m := by
  induction header with
  | nil => intro idx m j hj; simp at hj
  | cons c rest ih =>
    intro idx m j hj
    cases rest with
    | nil =>
      have hj0 : j = 0 := by simpa using hj
      subst hj0
      exact ⟨c, by simpa [columnsLoop] using mapInsert_mem m c idx⟩
    | cons d rest2 =>
      obtain ⟨k, hk⟩ := ih (idx + 1) (mapInsert m c idx) (j - 1)
        (by simp at hj ⊢; omega)
      refine ⟨k, ?_⟩
      have harith : idx + 1 + (j - 1) = idx + j := by
        simp [List.length_cons] at hj; omega
      rw [harith] at hk
      simpa [columnsLoop] using hk

/-- If any column of the index points beyond the parsed cells, the whole
row build is the out-of-range panic (`none`), whatever the other columns
hold. -/
lemma buildResult_none (columns : List (String × Nat)) (cells : List String)
    (k : String) (v : Nat) (hmem : (k, v) ∈ columns)
    (hv : cells.get? v = none) :
    buildResult columns cells = none := by
  induction columns with
  | nil => simp at hmem
  | cons p rest ih =>
    rcases List.mem_cons.mp hmem with heq | hmem2
    · subst heq
      rw [buildResult, hv]
    · rw [buildResult, ih hmem2]
      cases cells.get? p.2 <;> rfl

/-- C3: when the header has `n` columns and a data line splits into fewer
than `n` tab-separated cells, the row build of `Iter.Next` hits an
out-of-range index (`matches[index]` with `index ≥ len(matches)`) — a
fatal bounds violation, modelled as `none` — and never yields a truncated
`Result`. -/
theorem c3_short_row_is_fatal (header : List String) (line : String)
    (h : (splitTabs line).length < header.length) :
    NextRow (columnsOf header) line = none := by
  obtain ⟨k, hk⟩ := columnsLoop_last_mem header 0 [] (header.length - 1)
    (by omega)
  apply buildResult_none _ _ k (header.length - 1) (by simpa using hk)
  exact List.get?_eq_none.mpr (by omega)

/-- Witness for C3: a two-column header against a one-cell row. -/
theorem c3_short_row_is_fatal_witness :
    (splitTabs "x").length < (["a", "b"] : List String).length ∧
    NextRow (columnsOf ["a", "b"]) "x" = none :=
  ⟨by decide, c3_short_row_is_fatal ["a", "b"] "x" (by decide)⟩

end Clickhouse

namespace Clickhouse

/-- A list occurs inside itself. -/
lemma containsSub_self (sub : List Char) : containsSub sub sub = true := by
  cases sub with
  | nil => rfl
  | cons c rest =>
    have h : (c :: rest).isPrefixOf (c :: rest) = true :=
      List.isPrefixOf_iff_prefix.mpr (List.prefix_refl _)
    simp [containsSub, h]

/-- A suffix occurs inside the whole list. -/
lemma containsSub_append_left (pre sub : List Char) :
    containsSub sub (pre ++ sub) = true := by
  induction pre with
  | nil => simpa using containsSub_self sub
  | cons c pre ih => simp [containsSub, ih]

/-- `strings.Contains(pre ++ m, m)` always holds: every wrapper message
built by concatenating a prefix onto an error keeps that error inside. -/
lemma goContains_append (pre m : String) : goContains (pre ++ m) m = true := by
  have h := String.data_append pre m
  simp only [goContains, String.toList, h]
  exact containsSub_append_left pre.data m.data

/-- With zero fuel the loop exits: no further attempt is made and the
sleep trace is unchanged, whatever the carried `err`/`res`. -/
lemma doQueryLoop_zero (conn : Conn) (env : Nat → Outcome)
    (attempts : Nat) (err : Option String) (res : Option Response)
    (sleeps : List Nat) :
    (doQueryLoop conn env 0 attempts err res sleeps).attemptsMade = attempts ∧
    (doQueryLoop conn env 0 attempts err res sleeps).sleeps = sleeps := by
  rcases err with _ | m
  · rcases res with _ | r
    · simp [doQueryLoop]
    · rcases h : handleErrStatus r <;> simp [doQueryLoop, h]
  · simp [doQueryLoop]

/-- The number of attempts made lies between the attempts already counted
and that plus the remaining fuel. -/
lemma doQueryLoop_attempts_bounds (conn : Conn) (env : Nat → Outcome) :
    ∀ fuel attempts err res sleeps,
      attempts ≤ (doQueryLoop conn env fuel attempts err res sleeps).attemptsMade ∧
      (doQueryLoop conn env fuel attempts err res sleeps).attemptsMade ≤
        attempts + fuel := by
  intro fuel
  induction fuel with
  | zero =>
    intro attempts err res sleeps
    have h := (doQueryLoop_zero conn env attempts err res sleeps).1
    omega
  | succ fuel ih =>
    intro attempts err res sleeps
    rcases henv : env attempts with m | r
    · by_cases hgt : conn.attemptsAmount > 1
      · by_cases hmem : goContains m "Memory limit" = true
        · simp [doQueryLoop, henv, hgt, hmem]
        · have h := ih (attempts + 1) (some m) none (sleepStep conn attempts sleeps)
          simp [doQueryLoop, henv, hgt, hmem]; omega
      · have h := ih (attempts + 1) (some m) none (sleepStep conn attempts sleeps)
        simp [doQueryLoop, henv, hgt]; omega
    · by_cases hgt : conn.attemptsAmount > 1
      · rcases hh : handleErrStatus r with _ | e | _
        · rcases hgr : getReader r with rd | e
          · simp [doQueryLoop, henv, hgt, hh, hgr]
          · simp [doQueryLoop, henv, hgt, hh, hgr]
        · have h := ih (attempts + 1) (some e) (some r) (sleepStep conn attempts sleeps)
          simp [doQueryLoop, henv, hgt, hh]; omega
        · simp [doQueryLoop, henv, hgt, hh]
      · have h := ih (attempts + 1) none (some r) (sleepStep conn attempts sleeps)
        simp [doQueryLoop, henv, hgt]; omega

end Clickhouse

namespace Clickhouse

/-- Core of C6: once the loop reaches an attempt whose transport error
mentions the memory limit, no further attempt is performed and the error
returned embeds that message — via the in-loop fast abort when
`attemptsAmount > 1`, or via the post-loop wrap when the configuration
admits no retry anyway. -/
lemma doQueryLoop_memlimit (conn : Conn) (env : Nat → Outcome) (m : String)
    (hm : goContains m "Memory limit" = true) :
    ∀ fuel attempts err res sleeps j,
      attempts + fuel ≤ conn.attemptsAmount →
      attempts ≤ j →
      j < (doQueryLoop conn env fuel attempts err res sleeps).attemptsMade →
      env j = .transportErr m →
      (doQueryLoop conn env fuel attempts err res sleeps).attemptsMade = j + 1 ∧
      ∃ e, (doQueryLoop conn env fuel attempts err res sleeps).result = .err e ∧
        goContains e m = true := by
  intro fuel
  induction fuel with
  | zero =>
    intro attempts err res sleeps j hle haj hj he
    have h0 := (doQueryLoop_zero conn env attempts err res sleeps).1
    omega
  | succ fuel ih =>
    intro attempts err res sleeps j hle haj hj he
    rcases henv : env attempts with m' | r
    · by_cases hgt : conn.attemptsAmount > 1
      · by_cases hmem : goContains m' "Memory limit" = true
        · have heq : doQueryLoop conn env (fuel + 1) attempts err res sleeps =
              ⟨attempts + 1, sleepStep conn attempts sleeps,
                .err ("Catch warning " ++ m')⟩ := by
            simp [doQueryLoop, henv, hgt, hmem]
          rw [heq] at hj ⊢
          have hje : j = attempts := by simp at hj; omega
          subst hje
          rw [he] at henv
          injection henv with hmeq
          subst hmeq
          exact ⟨by simp, "Catch warning " ++ m, rfl, goContains_append _ m⟩
        · have heq : doQueryLoop conn env (fuel + 1) attempts err res sleeps =
              doQueryLoop conn env fuel (attempts + 1) (some m') none
                (sleepStep conn attempts sleeps) := by
            simp [doQueryLoop, henv, hgt, hmem]
          rw [heq] at hj ⊢
          have hne : j ≠ attempts := by
            intro hje
            subst hje
            rw [he] at henv
            injection henv with hmeq
            subst hmeq
            exact absurd hm hmem
          exact ih (attempts + 1) (some m') none (sleepStep conn attempts sleeps) j
            (by omega) (by omega) hj he
      · have ha0 : attempts = 0 := by omega
        have hf0 : fuel = 0 := by omega
        subst ha0; subst hf0
        have heq : doQueryLoop conn env (0 + 1) 0 err res sleeps =
            doQueryLoop conn env 0 1 (some m') none (sleepStep conn 0 sleeps) := by
          simp [doQueryLoop, henv, hgt]
        rw [heq] at hj ⊢
        have hje : j = 0 := by
          have h0 := (doQueryLoop_zero conn env 1 (some m') none
            (sleepStep conn 0 sleeps)).1
          omega
        subst hje
        rw [he] at henv
        injection henv with hmeq
        subst hmeq
        have h0 := (doQueryLoop_zero conn env 1 (some m) none
          (sleepStep conn 0 sleeps)).1
        refine ⟨by omega, "Can't do request to host " ++ getFQDN conn false ++ ": " ++ m,
          by simp [doQueryLoop], ?_⟩
        exact goContains_append _ m
    · by_cases hgt : conn.attemptsAmount > 1
      · rcases hh : handleErrStatus r with _ | e | _
        · rcases hgr : getReader r with e | rd
          · have heq : doQueryLoop conn env (fuel + 1) attempts err res sleeps =
                ⟨attempts + 1, sleepStep conn attempts sleeps, .err e⟩ := by
              simp [doQueryLoop, henv, hgt, hh, hgr]
            rw [heq] at hj ⊢
            have hje : j = attempts := by simp at hj; omega
            subst hje
            rw [he] at henv
            cases henv
          · have heq : doQueryLoop conn env (fuel + 1) attempts err res sleeps =
                ⟨attempts + 1, sleepStep conn attempts sleeps, .ok rd⟩ := by
              simp [doQueryLoop, henv, hgt, hh, hgr]
            rw [heq] at hj ⊢
            have hje : j = attempts := by simp at hj; omega
            subst hje
            rw [he] at henv
            cases henv
        · have heq : doQueryLoop conn env (fuel + 1) attempts err res sleeps =
              doQueryLoop conn env fuel (attempts + 1) (some e) (some r)
                (sleepStep conn attempts sleeps) := by
            simp [doQueryLoop, henv, hgt, hh]
          rw [heq] at hj ⊢
          have hne : j ≠ attempts := by
            intro hje; subst hje; rw [he] at henv; cases henv
          exact ih (attempts + 1) (some e) (some r) (sleepStep conn attempts sleeps) j
            (by omega) (by omega) hj he
        · have heq : doQueryLoop conn env (fuel + 1) attempts err res sleeps =
              ⟨attempts + 1, sleepStep conn attempts sleeps, .panic⟩ := by
            simp [doQueryLoop, henv, hgt, hh]
          rw [heq] at hj ⊢
          have hje : j = attempts := by simp at hj; omega
          subst hje
          rw [he] at henv
          cases henv
      · have ha0 : attempts = 0 := by omega
        have hf0 : fuel = 0 := by omega
        subst ha0; subst hf0
        have heq : doQueryLoop conn env (0 + 1) 0 err res sleeps =
            doQueryLoop conn env 0 1 none (some r) (sleepStep conn 0 sleeps) := by
          simp [doQueryLoop, henv, hgt]
        rw [heq] at hj ⊢
        have hje : j = 0 := by
          have h0 := (doQueryLoop_zero conn env 1 none (some r)
            (sleepStep conn 0 sleeps)).1
          omega
        subst hje
        rw [he] at henv
        cases henv

/-- C6: whenever some performed attempt fails with a transport error whose
message mentions the memory limit, `doQuery` performs no further attempt —
that attempt is the last one — and the returned error embeds the message,
for every configured attempts amount including the default of 1. -/
theorem c6_memory_limit_aborts (conn : Conn) (env : Nat → Outcome)
    (j : Nat) (m : String)
    (hm : goContains m "Memory limit" = true)
    (hj : j < (doQuery conn env).attemptsMade)
    (he : env j = .transportErr m) :
    (doQuery conn env).attemptsMade = j + 1 ∧
    ∃ e, (doQuery conn env).result = .err e ∧ goContains e m = true :=
  doQueryLoop_memlimit conn env m hm conn.attemptsAmount 0 none none [] j
    (by omega) (Nat.zero_le j) hj he

/-- Witness for C6: five configured attempts, a memory-limit transport
error on the very first attempt — exactly one attempt is made. -/
theorem c6_memory_limit_aborts_witness :
    (goContains memErrMsg "Memory limit" = true ∧
     0 < (doQuery connA5 memEnv).attemptsMade ∧
     memEnv 0 = .transportErr memErrMsg) ∧
    ((doQuery connA5 memEnv).attemptsMade = 0 + 1 ∧
     ∃ e, (doQuery connA5 memEnv).result = .err e ∧ goContains e memErrMsg = true) :=
  ⟨⟨by decide, by decide, rfl⟩,
   c6_memory_limit_aborts connA5 memEnv 0 memErrMsg (by decide) (by decide) rfl⟩

end Clickhouse

namespace Clickhouse

/-- Status 200 is the only status `handleErrStatus` accepts. -/
lemma handleErrStatus_200 (r : Response) (h : r.status = 200) :
    handleErrStatus r = .ok := by
  simp [handleErrStatus, h]

/-- Core of C8's stop-on-success clause: once a performed attempt receives
a status-200 response, the loop ends with it — whether through the in-loop
success return (`attemptsAmount > 1`) or because a single-attempt
configuration has no iterations left. -/
lemma doQueryLoop_status200 (conn : Conn) (env : Nat → Outcome) :
    ∀ fuel attempts err res sleeps j r,
      attempts + fuel ≤ conn.attemptsAmount →
      attempts ≤ j →
      j < (doQueryLoop conn env fuel attempts err res sleeps).attemptsMade →
      env j = .response r →
      r.status = 200 →
      (doQueryLoop conn env fuel attempts err res sleeps).attemptsMade = j + 1 := by
  intro fuel
  induction fuel with
  | zero =>
    intro attempts err res sleeps j r hle haj hj he hr
    have h0 := (doQueryLoop_zero conn env attempts err res sleeps).1
    omega
  | succ fuel ih =>
    intro attempts err res sleeps j r hle haj hj he hr
    rcases henv : env attempts with m' | r'
    · by_cases hgt : conn.attemptsAmount > 1
      · by_cases hmem : goContains m' "Memory limit" = true
        · have heq : doQueryLoop conn env (fuel + 1) attempts err res sleeps =
              ⟨attempts + 1, sleepStep conn attempts sleeps,
                .err ("Catch warning " ++ m')⟩ := by
            simp [doQueryLoop, henv, hgt, hmem]
          rw [heq] at hj ⊢
          simp at hj ⊢
          omega
        · have heq : doQueryLoop conn env (fuel + 1) attempts err res sleeps =
              doQueryLoop conn env fuel (attempts + 1) (some m') none
                (sleepStep conn attempts sleeps) := by
            simp [doQueryLoop, henv, hgt, hmem]
          rw [heq] at hj ⊢
          have hne : j ≠ attempts := by
            intro hje; subst hje; rw [he] at henv; cases henv
          exact ih (attempts + 1) (some m') none (sleepStep conn attempts sleeps) j r
            (by omega) (by omega) hj he hr
      · have ha0 : attempts = 0 := by omega
        have hf0 : fuel = 0 := by omega
        subst ha0; subst hf0
        have heq : doQueryLoop conn env (0 + 1) 0 err res sleeps =
            doQueryLoop conn env 0 1 (some m') none (sleepStep conn 0 sleeps) := by
          simp [doQueryLoop, henv, hgt]
        rw [heq] at hj ⊢
        have h0 := (doQueryLoop_zero conn env 1 (some m') none
          (sleepStep conn 0 sleeps)).1
        omega
    · by_cases hgt : conn.attemptsAmount > 1
      · rcases hh : handleErrStatus r' with _ | e | _
        · rcases hgr : getReader r' with e | rd
          · have heq : doQueryLoop conn env (fuel + 1) attempts err res sleeps =
                ⟨attempts + 1, sleepStep conn attempts sleeps, .err e⟩ := by
              simp [doQueryLoop, henv, hgt, hh, hgr]
            rw [heq] at hj ⊢
            simp at hj ⊢
            omega
          · have heq : doQueryLoop conn env (fuel + 1) attempts err res sleeps =
                ⟨attempts + 1, sleepStep conn attempts sleeps, .ok rd⟩ := by
              simp [doQueryLoop, henv, hgt, hh, hgr]
            rw [heq] at hj ⊢
            simp at hj ⊢
            omega
        · have heq : doQueryLoop conn env (fuel + 1) attempts err res sleeps =
              doQueryLoop conn env fuel (attempts + 1) (some e) (some r')
                (sleepStep conn attempts sleeps) := by
            simp [doQueryLoop, henv, hgt, hh]
          rw [heq] at hj ⊢
          have hne : j ≠ attempts := by
            intro hje
            subst hje
            rw [he] at henv
            injection henv with hre
            subst hre
            rw [handleErrStatus_200 r hr] at hh
            cases hh
          exact ih (attempts + 1) (some e) (some r') (sleepStep conn attempts sleeps) j r
            (by omega) (by omega) hj he hr
        · have heq : doQueryLoop conn env (fuel + 1) attempts err res sleeps =
              ⟨attempts + 1, sleepStep conn attempts sleeps, .panic⟩ := by
            simp [doQueryLoop, henv, hgt, hh]
          rw [heq] at hj ⊢
          simp at hj ⊢
          omega
      · have ha0 : attempts = 0 := by omega
        have hf0 : fuel = 0 := by omega
        subst ha0; subst hf0
        have heq : doQueryLoop conn env (0 + 1) 0 err res sleeps =
            doQueryLoop conn env 0 1 none (some r') (sleepStep conn 0 sleeps) := by
          simp [doQueryLoop, henv, hgt]
        rw [heq] at hj ⊢
        have h0 := (doQueryLoop_zero conn env 1 none (some r')
          (sleepStep conn 0 sleeps)).1
        omega

end Clickhouse

namespace Clickhouse

/-- Sleep trace of the loop when at least one attempt has already been
counted: each further iteration `k` prepends its backoff of
`k * attemptWait mod 2^32` seconds, so the trace extends by exactly the
backoffs of the performed attempts. -/
lemma doQueryLoop_sleeps_pos (conn : Conn) (env : Nat → Outcome) :
    ∀ fuel attempts err res sleeps, 1 ≤ attempts →
      (doQueryLoop conn env fuel attempts err res sleeps).sleeps =
        sleeps ++ (List.range' attempts
            ((doQueryLoop conn env fuel attempts err res sleeps).attemptsMade - attempts)).map
          (fun k => k * conn.attemptWait % 2 ^ 32) := by
  intro fuel
  induction fuel with
  | zero =>
    intro attempts err res sleeps hpos
    obtain ⟨h1, h2⟩ := doQueryLoop_zero conn env attempts err res sleeps
    rw [h1, h2]
    simp
  | succ fuel ih =>
    intro attempts err res sleeps hpos
    have hstep : sleepStep conn attempts sleeps =
        sleeps ++ [attempts * conn.attemptWait % 2 ^ 32] := by
      simp [sleepStep]
      omega
    have hrec : ∀ err2 res2,
        doQueryLoop conn env (fuel + 1) attempts err res sleeps =
          doQueryLoop conn env fuel (attempts + 1) err2 res2
            (sleepStep conn attempts sleeps) →
        (doQueryLoop conn env (fuel + 1) attempts err res sleeps).sleeps =
          sleeps ++ (List.range' attempts
              ((doQueryLoop conn env (fuel + 1) attempts err res sleeps).attemptsMade
                - attempts)).map
            (fun k => k * conn.attemptWait % 2 ^ 32) := by
      intro err2 res2 heq
      rw [heq]
      have hbounds := doQueryLoop_attempts_bounds conn env fuel (attempts + 1) err2 res2
        (sleepStep conn attempts sleeps)
      have hih := ih (attempts + 1) err2 res2 (sleepStep conn attempts sleeps) (by omega)
      have hn : (doQueryLoop conn env fuel (attempts + 1) err2 res2
          (sleepStep conn attempts sleeps)).attemptsMade - attempts =
          ((doQueryLoop conn env fuel (attempts + 1) err2 res2
            (sleepStep conn attempts sleeps)).attemptsMade - (attempts + 1)) + 1 := by
        omega
      rw [hih, hn, List.range'_succ, List.map_cons, hstep, List.append_assoc,
        List.singleton_append]
    have hret :
        (doQueryLoop conn env (fuel + 1) attempts err res sleeps).attemptsMade =
          attempts + 1 →
        (doQueryLoop conn env (fuel + 1) attempts err res sleeps).sleeps =
          sleepStep conn attempts sleeps →
        (doQueryLoop conn env (fuel + 1) attempts err res sleeps).sleeps =
          sleeps ++ (List.range' attempts
              ((doQueryLoop conn env (fuel + 1) attempts err res sleeps).attemptsMade
                - attempts)).map
            (fun k => k * conn.attemptWait % 2 ^ 32) := by
      intro h1 h2
      rw [h1, h2, hstep]
      simp [List.range']
    rcases henv : env attempts with m' | r'
    · by_cases hgt : conn.attemptsAmount > 1
      · by_cases hmem : goContains m' "Memory limit" = true
        · exact hret (by simp [doQueryLoop, henv, hgt, hmem]) (by simp [doQueryLoop, henv, hgt, hmem])
        · exact hrec (some m') none (by simp [doQueryLoop, henv, hgt, hmem])
      · exact hrec (some m') none (by simp [doQueryLoop, henv, hgt])
    · by_cases hgt : conn.attemptsAmount > 1
      · rcases hh : handleErrStatus r' with _ | e | _
        · rcases hgr : getReader r' with e | rd
          · exact hret (by simp [doQueryLoop, henv, hgt, hh, hgr]) (by simp [doQueryLoop, henv, hgt, hh, hgr])
          · exact hret (by simp [doQueryLoop, henv, hgt, hh, hgr]) (by simp [doQueryLoop, henv, hgt, hh, hgr])
        · exact hrec (some e) (some r') (by simp [doQueryLoop, henv, hgt, hh])
        · exact hret (by simp [doQueryLoop, henv, hgt, hh]) (by simp [doQueryLoop, henv, hgt, hh])
      · exact hrec none (some r') (by simp [doQueryLoop, henv, hgt])

/-- Sleep trace of a full `doQuery` run: no sleep before the first
attempt, then `k * attemptWait mod 2^32` seconds before attempt `k` for
`k = 1, ..., attemptsMade - 1`. -/
lemma doQuery_sleeps (conn : Conn) (env : Nat → Outcome) :
    (doQuery conn env).sleeps =
      (List.range' 1 ((doQuery conn env).attemptsMade - 1)).map
        (fun k => k * conn.attemptWait % 2 ^ 32) := by
  rw [doQuery]
  rcases hfuel : conn.attemptsAmount with _ | fuel
  · obtain ⟨h1, h2⟩ := doQueryLoop_zero conn env 0 none none []
    rw [h1, h2]
    simp
  · have hstep : sleepStep conn 0 [] = [] := by simp [sleepStep]
    have hrec : ∀ err2 res2,
        doQueryLoop conn env (fuel + 1) 0 none none [] =
          doQueryLoop conn env fuel 1 err2 res2 (sleepStep conn 0 []) →
        (doQueryLoop conn env (fuel + 1) 0 none none []).sleeps =
          (List.range' 1
              ((doQueryLoop conn env (fuel + 1) 0 none none []).attemptsMade - 1)).map
            (fun k => k * conn.attemptWait % 2 ^ 32) := by
      intro err2 res2 heq
      rw [heq]
      have hih := doQueryLoop_sleeps_pos conn env fuel 1 err2 res2
        (sleepStep conn 0 []) (by omega)
      rw [hih, hstep]
      simp
    have hret :
        (doQueryLoop conn env (fuel + 1) 0 none none []).attemptsMade = 1 →
        (doQueryLoop conn env (fuel + 1) 0 none none []).sleeps = sleepStep conn 0 [] →
        (doQueryLoop conn env (fuel + 1) 0 none none []).sleeps =
          (List.range' 1
              ((doQueryLoop conn env (fuel + 1) 0 none none []).attemptsMade - 1)).map
            (fun k => k * conn.attemptWait % 2 ^ 32) := by
      intro h1 h2
      rw [h1, h2, hstep]
      simp
    rcases henv : env 0 with m' | r'
    · by_cases hgt : conn.attemptsAmount > 1
      · by_cases hmem : goContains m' "Memory limit" = true
        · exact hret (by simp [doQueryLoop, henv, hgt, hmem]) (by simp [doQueryLoop, henv, hgt, hmem])
        · exact hrec (some m') none (by simp [doQueryLoop, henv, hgt, hmem])
      · exact hrec (some m') none (by simp [doQueryLoop, henv, hgt])
    · by_cases hgt : conn.attemptsAmount > 1
      · rcases hh : handleErrStatus r' with _ | e | _
        · rcases hgr : getReader r' with e | rd
          · exact hret (by simp [doQueryLoop, henv, hgt, hh, hgr]) (by simp [doQueryLoop, henv, hgt, hh, hgr])
          · exact hret (by simp [doQueryLoop, henv, hgt, hh, hgr]) (by simp [doQueryLoop, henv, hgt, hh, hgr])
        · exact hrec (some e) (some r') (by simp [doQueryLoop, henv, hgt, hh])
        · exact hret (by simp [doQueryLoop, henv, hgt, hh]) (by simp [doQueryLoop, henv, hgt, hh])
      · exact hrec none (some r') (by simp [doQueryLoop, henv, hgt])

end Clickhouse

namespace Clickhouse

/-- Core of C8's last-error clause: starting from any state satisfying
`loopInv`, if the loop returns an error and its most recent attempt
produced an error text (its transport error message or its
`handleErrStatus` message), the returned error embeds that text. -/
lemma doQueryLoop_lastErr (conn : Conn) (env : Nat → Outcome) :
    ∀ fuel attempts err res sleeps,
      loopInv conn env attempts err res →
      ∀ m', (doQueryLoop conn env fuel attempts err res sleeps).result = .err m' →
      ∀ t, lastErrText env
          (doQueryLoop conn env fuel attempts err res sleeps).attemptsMade = some t →
      goContains m' t = true := by
  intro fuel
  induction fuel with
  | zero =>
    intro attempts err res sleeps hinv m' hres t ht
    rw [(doQueryLoop_zero conn env attempts err res sleeps).1] at ht
    rcases hinv with ⟨rfl, rfl, rfl⟩ | ⟨hpos, hcase⟩
    · have hp : (doQueryLoop conn env 0 0 none none sleeps).result = .panic := by
        simp [doQueryLoop]
      rw [hp] at hres
      cases hres
    · obtain ⟨k, rfl⟩ : ∃ k, attempts = k + 1 := ⟨attempts - 1, by omega⟩
      rcases hcase with ⟨mm, henvk, rfl, rfl⟩ | ⟨r, henvk, rfl, herr⟩
      · have hr : (doQueryLoop conn env 0 (k + 1) (some mm) none sleeps).result =
            .err ("Can't do request to host " ++ getFQDN conn false ++ ": " ++ mm) := by
          simp [doQueryLoop]
        rw [hr] at hres
        injection hres with hms
        subst hms
        simp only [Nat.add_sub_cancel] at henvk
        simp only [lastErrText, henvk, Option.some.injEq] at ht
        subst ht
        exact goContains_append _ _
      · simp only [Nat.add_sub_cancel] at henvk
        by_cases hgt : conn.attemptsAmount > 1
        · rw [if_pos hgt] at herr
          rcases hh : handleErrStatus r with _ | e | _
          · rw [hh] at herr
            subst herr
            have hp : (doQueryLoop conn env 0 (k + 1) none (some r) sleeps).result =
                .ok (.raw r) := by
              simp [doQueryLoop, hh]
            rw [hp] at hres
            cases hres
          · rw [hh] at herr
            subst herr
            have hr : (doQueryLoop conn env 0 (k + 1) (some e) (some r) sleeps).result =
                .err ("Can't do request to host " ++ getFQDN conn false ++ ": " ++ e) := by
              simp [doQueryLoop]
            rw [hr] at hres
            injection hres with hms
            subst hms
            simp only [lastErrText, henvk, hh, Option.some.injEq] at ht
            subst ht
            exact goContains_append _ _
          · rw [hh] at herr
            subst herr
            have hp : (doQueryLoop conn env 0 (k + 1) none (some r) sleeps).result =
                .panic := by
              simp [doQueryLoop, hh]
            rw [hp] at hres
            cases hres
        · rw [if_neg hgt] at herr
          subst herr
          rcases hh : handleErrStatus r with _ | e | _
          · have hp : (doQueryLoop conn env 0 (k + 1) none (some r) sleeps).result =
                .ok (.raw r) := by
              simp [doQueryLoop, hh]
            rw [hp] at hres
            cases hres
          · have hr : (doQueryLoop conn env 0 (k + 1) none (some r) sleeps).result =
                .err ("Catch error " ++ e) := by
              simp [doQueryLoop, hh]
            rw [hr] at hres
            injection hres with hms
            subst hms
            simp only [lastErrText, henvk, hh, Option.some.injEq] at ht
            subst ht
            exact goContains_append _ _
          · have hp : (doQueryLoop conn env 0 (k + 1) none (some r) sleeps).result =
                .panic := by
              simp [doQueryLoop, hh]
            rw [hp] at hres
            cases hres
  | succ fuel ih =>
    intro attempts err res sleeps hinv m' hres t ht
    rcases henv : env attempts with mm | r
    · by_cases hgt : conn.attemptsAmount > 1
      · by_cases hmem : goContains mm "Memory limit" = true
        · have heq : doQueryLoop conn env (fuel + 1) attempts err res sleeps =
              ⟨attempts + 1, sleepStep conn attempts sleeps,
                .err ("Catch warning " ++ mm)⟩ := by
            simp [doQueryLoop, henv, hgt, hmem]
          rw [heq] at hres ht
          injection hres with hms
          subst hms
          simp only [lastErrText, henv, Option.some.injEq] at ht
          subst ht
          exact goContains_append _ _
        · have heq : doQueryLoop conn env (fuel + 1) attempts err res sleeps =
              doQueryLoop conn env fuel (attempts + 1) (some mm) none
                (sleepStep conn attempts sleeps) := by
            simp [doQueryLoop, henv, hgt, hmem]
          rw [heq] at hres ht
          refine ih (attempts + 1) (some mm) none (sleepStep conn attempts sleeps)
            ?_ m' hres t ht
          exact Or.inr ⟨by omega, Or.inl ⟨mm, by simpa using henv, rfl, rfl⟩⟩
      · have heq : doQueryLoop conn env (fuel + 1) attempts err res sleeps =
            doQueryLoop conn env fuel (attempts + 1) (some mm) none
              (sleepStep conn attempts sleeps) := by
          simp [doQueryLoop, henv, hgt]
        rw [heq] at hres ht
        refine ih (attempts + 1) (some mm) none (sleepStep conn attempts sleeps)
          ?_ m' hres t ht
        exact Or.inr ⟨by omega, Or.inl ⟨mm, by simpa using henv, rfl, rfl⟩⟩
    · by_cases hgt : conn.attemptsAmount > 1
      · rcases hh : handleErrStatus r with _ | e | _
        · rcases hgr : getReader r with e | rd
          · have heq : doQueryLoop conn env (fuel + 1) attempts err res sleeps =
                ⟨attempts + 1, sleepStep conn attempts sleeps, .err e⟩ := by
              simp [doQueryLoop, henv, hgt, hh, hgr]
            rw [heq] at hres ht
            injection hres with hms
            subst hms
            simp only [lastErrText, henv, hh] at ht
            cases ht
          · have heq : doQueryLoop conn env (fuel + 1) attempts err res sleeps =
                ⟨attempts + 1, sleepStep conn attempts sleeps, .ok rd⟩ := by
              simp [doQueryLoop, henv, hgt, hh, hgr]
            rw [heq] at hres
            cases hres
        · have heq : doQueryLoop conn env (fuel + 1) attempts err res sleeps =
              doQueryLoop conn env fuel (attempts + 1) (some e) (some r)
                (sleepStep conn attempts sleeps) := by
            simp [doQueryLoop, henv, hgt, hh]
          rw [heq] at hres ht
          refine ih (attempts + 1) (some e) (some r) (sleepStep conn attempts sleeps)
            ?_ m' hres t ht
          refine Or.inr ⟨by omega, Or.inr ⟨r, by simpa using henv, rfl, ?_⟩⟩
          rw [if_pos hgt, hh]
        · have heq : doQueryLoop conn env (fuel + 1) attempts err res sleeps =
              ⟨attempts + 1, sleepStep conn attempts sleeps, .panic⟩ := by
            simp [doQueryLoop, henv, hgt, hh]
          rw [heq] at hres
          cases hres
      · have heq : doQueryLoop conn env (fuel + 1) attempts err res sleeps =
            doQueryLoop conn env fuel (attempts + 1) none (some r)
              (sleepStep conn attempts sleeps) := by
          simp [doQueryLoop, henv, hgt]
        rw [heq] at hres ht
        refine ih (attempts + 1) none (some r) (sleepStep conn attempts sleeps)
          ?_ m' hres t ht
        refine Or.inr ⟨by omega, Or.inr ⟨r, by simpa using henv, rfl, ?_⟩⟩
        rw [if_neg hgt]

end Clickhouse

namespace Clickhouse

/-- C8 (amended): for every query, `doQuery` performs at most
`attemptsAmount` attempts; before attempt `k > 0` it sleeps exactly
`k * attemptWait` seconds (as the `uint32` product, i.e. modulo `2^32`);
the first attempt yielding a STATUS-200 response ends the loop
immediately (other 2xx statuses are classified as errors and retried);
and when the run returns an error while its most recent attempt produced
an error text, the returned error embeds that text. -/
theorem c8_amended_retry_policy (conn : Conn) (env : Nat → Outcome) :
    (doQuery conn env).attemptsMade ≤ conn.attemptsAmount ∧
    (doQuery conn env).sleeps =
      (List.range' 1 ((doQuery conn env).attemptsMade - 1)).map
        (fun k => k * conn.attemptWait % 2 ^ 32) ∧
    (∀ j r, j < (doQuery conn env).attemptsMade → env j = .response r →
      r.status = 200 → (doQuery conn env).attemptsMade = j + 1) ∧
    (∀ m t, (doQuery conn env).result = .err m →
      lastErrText env (doQuery conn env).attemptsMade = some t →
      goContains m t = true) := by
  refine ⟨?_, doQuery_sleeps conn env, ?_, ?_⟩
  · have h := doQueryLoop_attempts_bounds conn env conn.attemptsAmount 0 none none []
    rw [doQuery]
    omega
  · intro j r hj he hr
    exact doQueryLoop_status200 conn env conn.attemptsAmount 0 none none [] j r
      (by omega) (Nat.zero_le j) hj he hr
  · intro m t hres ht
    exact doQueryLoop_lastErr conn env conn.attemptsAmount 0 none none []
      (Or.inl ⟨rfl, rfl, rfl⟩) m hres t ht

/-- Witness for C8 (amended), exercising the bound and the last-error
clause on the memory-limit run and the stop-at-200 clause on the gzip
run. -/
theorem c8_amended_retry_policy_witness :
    (doQuery connA5 memEnv).attemptsMade ≤ connA5.attemptsAmount ∧
    goContains "Catch warning read: Memory limit exceeded" memErrMsg = true ∧
    (doQuery connA2 gzEnv).attemptsMade = 0 + 1 :=
  ⟨(c8_amended_retry_policy connA5 memEnv).1,
   (c8_amended_retry_policy connA5 memEnv).2.2.2
     "Catch warning read: Memory limit exceeded" memErrMsg (by decide) (by decide),
   (c8_amended_retry_policy connA2 gzEnv).2.2.1 0 gzResp (by decide) rfl rfl⟩

end Clickhouse

namespace Clickhouse

/-- Invariant of the throttle's step consumer: every pending step list is
a suffix of the `[+1, -1]` bracket, and the shared counter equals the
number of calls that have acquired but not yet released. -/
lemma reach_invariant {srcs : List (List Int)} {c : Int} (h : Reach srcs c) :
    (∀ l ∈ srcs, l = [1, -1] ∨ l = [-1] ∨ l = []) ∧
    c = (srcs.countP (fun l => decide (l = [-1])) : Int) := by
  induction h with
  | init calls =>
    constructor
    · intro l hl
      simp only [List.mem_map] at hl
      obtain ⟨e, _, rfl⟩ := hl
      left
      rfl
    · rw [List.countP_map]
      have hz : calls.countP
          ((fun l => decide (l = [-1])) ∘ fun e => stepsOf (ExecEvents e)) = 0 := by
        rw [List.countP_eq_zero]
        intro e _
        show ¬ decide (([1, -1] : List Int) = [-1]) = true
        decide
      rw [hz]
      rfl
  | step hr ih =>
    rename_i pre post x rest c2
    obtain ⟨hgood, hc⟩ := ih
    have hp1 : (fun l => decide (l = ([-1] : List Int))) [1, -1] = false := by decide
    have hp2 : (fun l => decide (l = ([-1] : List Int))) [-1] = true := by decide
    have hp3 : (fun l => decide (l = ([-1] : List Int))) [] = false := by decide
    have hmid := hgood (x :: rest) (by simp)
    rcases hmid with h1 | h1 | h1
    · obtain ⟨rfl, rfl⟩ : x = 1 ∧ rest = [-1] := by
        injection h1 with ha hb
        exact ⟨ha, hb⟩
      constructor
      · intro l hl
        rcases List.mem_append.mp hl with hpre | hmm
        · exact hgood l (by simp [hpre])
        · rcases List.mem_cons.mp hmm with rfl | hpost
          · right; left; rfl
          · exact hgood l (by simp [hpost])
      · simp only [List.countP_append, List.countP_cons, hp1, hp2] at hc ⊢
        simp only [decide_True, if_true, if_false, Bool.false_eq_true] at hc ⊢
        subst hc
        push_cast
        omega
    · obtain ⟨rfl, rfl⟩ : x = -1 ∧ rest = [] := by
        injection h1 with ha hb
        exact ⟨ha, hb⟩
      constructor
      · intro l hl
        rcases List.mem_append.mp hl with hpre | hmm
        · exact hgood l (by simp [hpre])
        · rcases List.mem_cons.mp hmm with rfl | hpost
          · right; right; rfl
          · exact hgood l (by simp [hpost])
      · simp only [List.countP_append, List.countP_cons, hp2, hp3] at hc ⊢
        simp only [decide_True, if_true, if_false, Bool.false_eq_true] at hc ⊢
        subst hc
        push_cast
        omega
    · cases h1

/-- C7: every throttled entry point (`Exec`, `Fetch`, `FetchOne`) emits
exactly one acquire and exactly one release whatever the exit kind
(success, error or panic — the release is deferred), and along every
interleaving of such call brackets the shared in-flight count stays
non-negative. -/
theorem c7_throttle_balance (e : ExitKind) (srcs : List (List Int)) (c : Int)
    (h : Reach srcs c) :
    ((ExecEvents e).count TEv.acquire = 1 ∧ (ExecEvents e).count TEv.release = 1) ∧
    ((FetchEvents e).count TEv.acquire = 1 ∧ (FetchEvents e).count TEv.release = 1) ∧
    ((FetchOneEvents e).count TEv.acquire = 1 ∧
      (FetchOneEvents e).count TEv.release = 1) ∧
    0 ≤ c := by
  refine ⟨⟨rfl, rfl⟩, ⟨rfl, rfl⟩, ⟨rfl, rfl⟩, ?_⟩
  rw [(reach_invariant h).2]
  exact Int.natCast_nonneg _

/-- Witness for C7 at the successful exit kind and the initial (empty)
scheduler state. -/
theorem c7_throttle_balance_witness :
    ((ExecEvents .success).count TEv.acquire = 1 ∧
     (ExecEvents .success).count TEv.release = 1) ∧
    ((FetchEvents .success).count TEv.acquire = 1 ∧
     (FetchEvents .success).count TEv.release = 1) ∧
    ((FetchOneEvents .success).count TEv.acquire = 1 ∧
     (FetchOneEvents .success).count TEv.release = 1) ∧
    0 ≤ (0 : Int) :=
  c7_throttle_balance .success _ 0 (Reach.init [])

end Clickhouse
